import Mathlib

/-!
Verification of the caption-voting web application.

The definitions below are a shallow embedding of the repository's route
handlers and client widget logic:

* `votePost` / `voteGet` embed `src/app/api/vote/route.ts` (POST and GET),
* `aggregate` embeds the per-caption vote bucketing used by both the vote
  GET handler and the captions listing handler,
* `applyOptimistic` embeds the optimistic count update in
  `src/components/VotingButtons.tsx`,
* `engagementMetrics` and `analyticsUpvoteRatio` embed
  `src/app/api/caption-analytics/route.ts`,
* `fisherYates`, `randomResponse`, `detResponse` embed the listing and
  pagination logic of `src/app/api/captions/route.ts`.

The external persistence layer (Supabase tables) is modelled as an in-memory
list of rows; machine numbers are modelled as `Int` / `Nat` / `ℚ`.
-/

/-- A row of the `caption_votes` table: `id`, `caption_id`, `profile_id`,
`vote_value`.  Caption and profile identifiers are strings (uuids); the row
id is a database-assigned key, modelled as a natural number. -/
structure VoteRecord where
  id : Nat
  caption_id : String
  profile_id : String
  vote_value : Int
deriving DecidableEq, Repr

/-- The rows of `caption_votes` matching `.eq('caption_id', cid).eq('profile_id', uid)`. -/
def pairFilter (store : List VoteRecord) (cid uid : String) : List VoteRecord :=
  store.filter (fun r => decide (r.caption_id = cid) && decide (r.profile_id = uid))

/-- PostgREST `.single()` on the (caption, profile) filter: returns the row
when exactly one row matches, and a null `data` (an error) otherwise —
in particular both for zero and for two or more matching rows. -/
def singleVote (store : List VoteRecord) (cid uid : String) : Option VoteRecord :=
  match pairFilter store cid uid with
  | [r] => some r
  | _ => none

/-- A fresh database-assigned row id: strictly greater than every id in the
store, as the external store guarantees unique row keys. -/
def freshId (store : List VoteRecord) : Nat :=
  (store.map (fun r => r.id)).foldr Nat.max 0 + 1

/-- The JSON response of the vote POST handler, flattened: HTTP status,
`success`, `error`, and the `data` fields `action`, `vote`, `previous_vote`. -/
structure PostResponse where
  status : Nat
  success : Bool
  error : Option String
  action : Option String
  vote : Option VoteRecord
  previous_vote : Option Int
deriving DecidableEq, Repr

/-- The 401 response `{ success: false, error: 'Authentication required' }`. -/
def authRequired401 : PostResponse :=
  { status := 401, success := false, error := some "Authentication required"
    action := none, vote := none, previous_vote := none }

/-- The 400 response for a missing `caption_id` / `vote_value`. -/
def required400 : PostResponse :=
  { status := 400, success := false, error := some "caption_id and vote_value are required"
    action := none, vote := none, previous_vote := none }

/-- The 400 response for a `vote_value` outside `{1, -1, 0}`. -/
def invalidValue400 : PostResponse :=
  { status := 400, success := false
    error := some "vote_value must be 1 (upvote), -1 (downvote), or 0 (neutral)"
    action := none, vote := none, previous_vote := none }

/-- `POST /api/vote` (`src/app/api/vote/route.ts`).  Inputs: the current
`caption_votes` store, the authenticated principal (`none` when
`supabase.auth.getUser()` yields no user), and the request body fields
`caption_id` and `vote_value` (absent fields are `none`; the JS falsy check
`!caption_id` also rejects the empty string).  Returns the response and the
store after the call.  The `vote` field of the update branch is the row
returned by `.update(...).select().single()`, i.e. the existing row with its
`vote_value` overwritten. -/
def votePost (store : List VoteRecord) (user : Option String)
    (caption_id : Option String) (vote_value : Option Int) :
    PostResponse × List VoteRecord :=
  match user with
  | none => (authRequired401, store)
  | some uid =>
    match caption_id, vote_value with
    | some cid, some v =>
      if cid = "" then (required400, store)
      else if v = 1 ∨ v = -1 ∨ v = 0 then
        match singleVote store cid uid with
        | some ex =>
          let store2 := store.map (fun r => if r.id = ex.id then { r with vote_value := v } else r)
          ({ status := 200, success := true, error := none
             action := some "updated", vote := some { ex with vote_value := v }
             previous_vote := some ex.vote_value }, store2)
        | none =>
          let nr : VoteRecord :=
            { id := freshId store, caption_id := cid, profile_id := uid, vote_value := v }
          ({ status := 200, success := true, error := none
             action := some "created", vote := some nr, previous_vote := none },
           store ++ [nr])
      else (invalidValue400, store)
    | _, _ => (required400, store)

/-- A sequence of vote submissions by the same authenticated voter for the
same caption, applied left to right to the store. -/
def submitSeq (store : List VoteRecord) (uid cid : String) (vs : List Int) :
    List VoteRecord :=
  vs.foldl (fun s v => (votePost s (some uid) (some cid) (some v)).2) store

/-- Per-caption vote counts, as produced by the filter passes of the vote GET
handler and the captions listing handler.  Fields are `Int` because the
client widget later mutates them with JS number arithmetic. -/
structure WCounts where
  upvotes : Int
  downvotes : Int
  neutrals : Int
deriving DecidableEq, Repr

/-- The bucketing pass over the `vote_value`s fetched for one caption:
`upvotes = #(value > 0)`, `downvotes = #(value < 0)`, `neutrals = #(value == 0)`. -/
def aggregate (vals : List Int) : WCounts :=
  { upvotes := ((vals.filter (fun v => decide (0 < v))).length : Int)
    downvotes := ((vals.filter (fun v => decide (v < 0))).length : Int)
    neutrals := ((vals.filter (fun v => decide (v = 0))).length : Int) }

/-- `total_votes` as computed by the handlers: `upvotes + downvotes + neutrals`. -/
def totalVotes (c : WCounts) : Int :=
  c.upvotes + c.downvotes + c.neutrals

/-- The JS expression `x?.vote_value || null`: the vote value `0` is falsy,
so it collapses to null. -/
def jsOrNullInt (v : Int) : Option Int :=
  if v = 0 then none else some v

/-- The flattened JSON response of `GET /api/vote`. -/
structure VoteGetResponse where
  status : Nat
  success : Bool
  error : Option String
  vote_counts : WCounts
  user_vote : Option Int
  total_votes : Int
deriving DecidableEq, Repr

/-- `GET /api/vote` (`src/app/api/vote/route.ts`): aggregates all votes of the
caption and computes the caller's own vote as
`userVoteData?.vote_value || null` — note the falsy coalescing. -/
def voteGet (store : List VoteRecord) (user : Option String)
    (caption_id : Option String) : VoteGetResponse :=
  match caption_id with
  | none =>
    { status := 400, success := false, error := some "caption_id is required"
      vote_counts := aggregate [], user_vote := none, total_votes := 0 }
  | some cid =>
    if cid = "" then
      { status := 400, success := false, error := some "caption_id is required"
        vote_counts := aggregate [], user_vote := none, total_votes := 0 }
    else
      let counts := aggregate ((store.filter (fun r => decide (r.caption_id = cid))).map
        (fun r => r.vote_value))
      let uv : Option Int :=
        match user with
        | none => none
        | some uid =>
          match singleVote store cid uid with
          | none => none
          | some r => jsOrNullInt r.vote_value
      { status := 200, success := true, error := none
        vote_counts := counts, user_vote := uv, total_votes := totalVotes counts }

/-- The `user_vote` field computed for one caption by the captions listing
handler (`src/app/api/captions/route.ts`):
`userVotes.find(v => v.caption_id === caption.id)?.vote_value ?? null`,
where `userVotes` are the caller's vote rows.  `??` preserves the value `0`. -/
def listingUserVote (store : List VoteRecord) (uid cid : String) : Option Int :=
  match (store.filter (fun r => decide (r.profile_id = uid))).find?
      (fun r => decide (r.caption_id = cid)) with
  | none => none
  | some r => some r.vote_value

/-! ### Voting widget (`src/components/VotingButtons.tsx`) -/

/-- The optimistic local update of `handleVote`: decrement the bucket of the
previous vote when one exists (`currentUserVote !== null`), then increment
the bucket of the new value.  Mirrors the two if-chains of the component. -/
def applyOptimistic (c : WCounts) (prev : Option Int) (v : Int) : WCounts :=
  let c1 :=
    match prev with
    | none => c
    | some p =>
      if 0 < p then { c with upvotes := c.upvotes - 1 }
      else if p < 0 then { c with downvotes := c.downvotes - 1 }
      else { c with neutrals := c.neutrals - 1 }
  if 0 < v then { c1 with upvotes := c1.upvotes + 1 }
  else if v < 0 then { c1 with downvotes := c1.downvotes + 1 }
  else { c1 with neutrals := c1.neutrals + 1 }

/-- How an upvote-percentage figure is presented: omitted from the output,
rendered from a number, or rendered from the JS value `NaN`. -/
inductive RatioDisplay where
  | omitted : RatioDisplay
  | nanPercent : RatioDisplay
  | percent : ℚ → RatioDisplay
deriving DecidableEq, Repr

/-- JS `Math.round`: round half towards positive infinity. -/
def jsRound (q : ℚ) : Int :=
  ⌊q + 1 / 2⌋

/-- The widget's vote-summary percentage: rendered only under the guard
`voteCounts.upvotes + voteCounts.downvotes > 0`, as
`Math.round((upvotes / (upvotes + downvotes)) * 100)`; otherwise the span is
omitted and no division happens. -/
def widgetUpvoteRatio (c : WCounts) : RatioDisplay :=
  if 0 < c.upvotes + c.downvotes then
    .percent ((jsRound ((c.upvotes : ℚ) / ((c.upvotes : ℚ) + (c.downvotes : ℚ)) * 100) : Int) : ℚ)
  else .omitted

/-! ### Analytics (`src/app/api/caption-analytics/route.ts`) -/

/-- The upvote-ratio figure interpolated into the insight string
`"... votes cast with ...% upvote ratio"`.  The JS source computes
`(voteStats.upvotes / (voteStats.upvotes + voteStats.downvotes)) * 100`
with no guard; when `upvotes + downvotes = 0` the counts force
`upvotes = 0`, the division is `0 / 0`, and the JS result is `NaN`. -/
def analyticsUpvoteRatio (up down : Nat) : RatioDisplay :=
  if up + down = 0 then .nanPercent
  else .percent ((up : ℚ) / ((up : ℚ) + (down : ℚ)) * 100)

/-- The `engagementMetrics` object of the analytics handler. -/
structure Engagement where
  captionsWithLikes : Nat
  avgLikesPerCaption : ℚ
  maxLikes : Int
  likeRate : ℚ
deriving DecidableEq, Repr

/-- The analytics engagement computation.  `likeCounts` is the `like_count`
column of every `captions` row; `likesTableCount` is the exact row count of
the `caption_likes` table (one row per like, so in a consistent database it
equals the sum of the like counts).  Mirrors the source:
`captionsWithEngagement` is the rows with `like_count > 0`, and `likeRate`
is `(likesCount.count || 0) / (captionsCount.count || 1) * 100` — built from
the `caption_likes` row count, not from `captionsWithLikes`. -/
def engagementMetrics (likeCounts : List Int) (likesTableCount : Nat) : Engagement :=
  let withLikes := likeCounts.filter (fun c => decide (0 < c))
  { captionsWithLikes := withLikes.length
    avgLikesPerCaption :=
      if withLikes.length = 0 then 0
      else ((withLikes.sum : ℚ) / (withLikes.length : ℚ))
    maxLikes :=
      match withLikes with
      | [] => 0
      | x :: xs => xs.foldl max x
    likeRate :=
      ((likesTableCount : ℚ) /
        (if likeCounts.length = 0 then 1 else (likeCounts.length : ℚ))) * 100 }

/-! ### Caption listing (`src/app/api/captions/route.ts`) -/

/-- A row of the `captions` table, restricted to the fields the listing
handler reads. -/
structure Caption where
  id : String
  content : Option String
  like_count : Int
  created : Nat
deriving DecidableEq, Repr

/-- The query filter `.not('content', 'is', null).neq('content', '')`. -/
def hasContent (c : Caption) : Bool :=
  match c.content with
  | none => false
  | some s => decide (s ≠ "")

/-- The candidate set of both the fetch query and the count query: the
captions with non-empty content. -/
def candidates (db : List Caption) : List Caption :=
  db.filter hasContent

/-- One iteration of the shuffle body: the destructuring swap
`[arr[i], arr[j]] = [arr[j], arr[i]]`.  In the source both indices are
always in range; out-of-range indices leave the list unchanged. -/
def listSwap {α : Type} (l : List α) (i j : Nat) : List α :=
  if h : i < l.length ∧ j < l.length then
    (l.set i (l.get ⟨j, h.2⟩)).set j (l.get ⟨i, h.1⟩)
  else l

/-- The Fisher–Yates loop `for (let i = len - 1; i > 0; i--)`, consuming one
random index `j` per iteration from the front of `js`. -/
def fyAux {α : Type} : List α → Nat → List Nat → List α
  | l, _, [] => l
  | l, 0, _ :: _ => l
  | l, i + 1, j :: js => fyAux (listSwap l (i + 1) j) i js

/-- The in-memory shuffle of the random sort mode, parameterised by the
sequence `js` of random indices drawn by `Math.floor(Math.random() * (i + 1))`
for `i` from `length - 1` down to `1`. -/
def fisherYates {α : Type} (l : List α) (js : List Nat) : List α :=
  fyAux l (l.length - 1) js

/-- JS `Array.prototype.slice(s, e)` for non-negative indices: the elements
at positions `s` to `e - 1`. -/
def jsSlice {α : Type} (l : List α) (s e : Nat) : List α :=
  (l.take e).drop s

/-- The PostgREST `.range(offset, offset + limit - 1)` window applied by the
deterministic sort modes: `limit` rows starting at `offset`. -/
def dbRange {α : Type} (l : List α) (offset limit : Nat) : List α :=
  (l.drop offset).take limit

/-- The listing response: the returned page and the pagination metadata. -/
structure ListResponse (α : Type) where
  captions : List α
  total : Nat
  limit : Nat
  offset : Nat
  hasMore : Bool
deriving Repr

/-- The random-mode response: shuffle the fetched superset, slice
`[offset, offset + limit)`, and report `total = captionsWithVotes.length`
and `hasMore = (offset + limit) < captionsWithVotes.length`. -/
def randomResponse {α : Type} (superset : List α) (js : List Nat)
    (limit offset : Nat) : ListResponse α :=
  let shuffled := fisherYates superset js
  { captions := jsSlice shuffled offset (offset + limit)
    total := shuffled.length
    limit := limit
    offset := offset
    hasMore := decide (offset + limit < shuffled.length) }

/-- The deterministic-mode response: the database returns the window
`.range(offset, offset + limit - 1)` of the ordered candidate rows
(`sorted`), and a separate count query over the same content filter supplies
`total`; `hasMore = (offset + limit) < (totalCount || 0)`. -/
def detResponse (db : List Caption) (sorted : List Caption)
    (limit offset : Nat) : ListResponse Caption :=
  { captions := dbRange sorted offset limit
    total := (candidates db).length
    limit := limit
    offset := offset
    hasMore := decide (offset + limit < (candidates db).length) }

/-- The server-side effect of a vote submission on the multiset of one
caption's votes, seen as (voter, value) pairs: overwrite the voter's entry
when present, append one otherwise. -/
def replaceVote (V : List (String × Int)) (w : String) (v : Int) :
    List (String × Int) :=
  if V.any (fun e => decide (e.1 = w)) then
    V.map (fun e => if e.1 = w then (w, v) else e)
  else V ++ [(w, v)]

/-! ## Helper lemmas -/

/-- The three sign buckets partition any list of integer vote values. -/
theorem aggregate_total_eq_length (vals : List Int) :
    totalVotes (aggregate vals) = (vals.length : Int) := by
  have key : (vals.filter (fun v => decide (0 < v))).length
      + (vals.filter (fun v => decide (v < 0))).length
      + (vals.filter (fun v => decide (v = 0))).length = vals.length := by
    induction vals with
    | nil => rfl
    | cons v vs ih =>
      simp only [List.filter_cons, decide_eq_true_eq]
      rcases lt_trichotomy 0 v with h | h | h
      · have h1 : ¬ v < 0 := by omega
        have h2 : ¬ v = 0 := by omega
        rw [if_pos h, if_neg h1, if_neg h2]
        simp only [List.length_cons]
        omega
      · have h1 : ¬ 0 < v := by omega
        have h2 : ¬ v < 0 := by omega
        rw [if_neg h1, if_neg h2, if_pos h.symm]
        simp only [List.length_cons]
        omega
      · have h1 : ¬ 0 < v := by omega
        have h2 : ¬ v = 0 := by omega
        rw [if_neg h1, if_pos h, if_neg h2]
        simp only [List.length_cons]
        omega
  simp only [totalVotes, aggregate]
  exact_mod_cast key

/-- `pairFilter` distributes over append. -/
theorem pairFilter_append (s t : List VoteRecord) (cid uid : String) :
    pairFilter (s ++ t) cid uid = pairFilter s cid uid ++ pairFilter t cid uid := by
  simp [pairFilter]

/-- Overwriting `vote_value` on the rows with a given id commutes with the
(caption, voter) filter, because the update leaves both key fields intact. -/
theorem pairFilter_map_update (store : List VoteRecord) (cid uid : String)
    (idv : Nat) (v : Int) :
    pairFilter (store.map (fun r => if r.id = idv then { r with vote_value := v } else r))
        cid uid
      = (pairFilter store cid uid).map
          (fun r => if r.id = idv then { r with vote_value := v } else r) := by
  unfold pairFilter
  rw [List.filter_map]
  congr 1
  apply List.filter_congr
  intro r _
  by_cases hr : r.id = idv <;> simp [hr]

/-- The store after a validated, authenticated vote POST, by case on the
`.single()` lookup. -/
theorem votePost_store_eq (store : List VoteRecord) (uid cid : String) (v : Int)
    (hcid : cid ≠ "") (hv : v = 1 ∨ v = -1 ∨ v = 0) :
    (votePost store (some uid) (some cid) (some v)).2 =
      match singleVote store cid uid with
      | some ex => store.map (fun r => if r.id = ex.id then { r with vote_value := v } else r)
      | none => store ++
          [{ id := freshId store, caption_id := cid, profile_id := uid, vote_value := v }] := by
  simp only [votePost]
  rw [if_neg hcid, if_pos hv]
  cases singleVote store cid uid <;> rfl

/-- The response of a validated, authenticated vote POST, by case on the
`.single()` lookup. -/
theorem votePost_response_eq (store : List VoteRecord) (uid cid : String) (v : Int)
    (hcid : cid ≠ "") (hv : v = 1 ∨ v = -1 ∨ v = 0) :
    (votePost store (some uid) (some cid) (some v)).1 =
      match singleVote store cid uid with
      | some ex =>
        { status := 200, success := true, error := none
          action := some "updated", vote := some { ex with vote_value := v }
          previous_vote := some ex.vote_value }
      | none =>
        { status := 200, success := true, error := none, action := some "created"
          vote := some { id := freshId store, caption_id := cid, profile_id := uid,
                         vote_value := v }
          previous_vote := none } := by
  simp only [votePost]
  rw [if_neg hcid, if_pos hv]
  cases singleVote store cid uid <;> rfl

/-- After one validated submission from a state holding at most one row for
the pair, the pair's rows are exactly one row carrying the submitted value. -/
theorem pairFilter_after_votePost (store : List VoteRecord) (uid cid : String) (v : Int)
    (hcid : cid ≠ "") (hv : v = 1 ∨ v = -1 ∨ v = 0)
    (hpair : (pairFilter store cid uid).length ≤ 1) :
    (pairFilter (votePost store (some uid) (some cid) (some v)).2 cid uid).map
      (fun r => r.vote_value) = [v] := by
  rw [votePost_store_eq store uid cid v hcid hv]
  cases hfilter : pairFilter store cid uid with
  | nil =>
    have hsingle : singleVote store cid uid = none := by
      unfold singleVote
      rw [hfilter]
    simp only [hsingle]
    rw [pairFilter_append, hfilter]
    simp [pairFilter]
  | cons r rest =>
    have hrest : rest = [] := by
      rw [hfilter] at hpair
      cases rest with
      | nil => rfl
      | cons x xs => simp at hpair
    subst hrest
    have hsingle : singleVote store cid uid = some r := by
      unfold singleVote
      rw [hfilter]
    simp only [hsingle]
    rw [pairFilter_map_update, hfilter]
    simp

/-! ## Claims -/

/-- C1: starting from any store holding at most one row for the
(caption, voter) pair, a non-empty sequence of validated submissions by that
voter for that caption leaves exactly one row for the pair, and its stored
value is the last submitted one. -/
theorem c1_sequential_upsert_last_write_wins (store : List VoteRecord)
    (uid cid : String) (vs : List Int) (hne : vs ≠ [])
    (hvalid : ∀ v ∈ vs, v = 1 ∨ v = -1 ∨ v = 0) (hcid : cid ≠ "")
    (hpair : (pairFilter store cid uid).length ≤ 1) :
    (pairFilter (submitSeq store uid cid vs) cid uid).map (fun r => r.vote_value)
        = [vs.getLast hne] ∧
    (pairFilter (submitSeq store uid cid vs) cid uid).length = 1 := by
  induction vs generalizing store with
  | nil => exact absurd rfl hne
  | cons v vs ih =>
    have hv : v = 1 ∨ v = -1 ∨ v = 0 := hvalid v (List.mem_cons_self v vs)
    have hstep := pairFilter_after_votePost store uid cid v hcid hv hpair
    cases vs with
    | nil =>
      have hseq : submitSeq store uid cid [v]
          = (votePost store (some uid) (some cid) (some v)).2 := rfl
      rw [hseq]
      refine ⟨hstep, ?_⟩
      have := congrArg List.length hstep
      simpa using this
    | cons w ws =>
      have hseq : submitSeq store uid cid (v :: w :: ws)
          = submitSeq ((votePost store (some uid) (some cid) (some v)).2) uid cid (w :: ws) :=
        rfl
      have hlen : (pairFilter ((votePost store (some uid) (some cid) (some v)).2) cid uid).length
          ≤ 1 := by
        have := congrArg List.length hstep
        simp at this
        omega
      have hvalid2 : ∀ x ∈ (w :: ws), x = 1 ∨ x = -1 ∨ x = 0 := by
        intro x hx
        exact hvalid x (List.mem_cons_of_mem v hx)
      have hne2 : (w :: ws) ≠ ([] : List Int) := by simp
      have hih := ih ((votePost store (some uid) (some cid) (some v)).2) hne2 hvalid2 hlen
      rw [hseq]
      rw [List.getLast_cons hne2]
      exact hih

/-- C1 witness: two submissions (+1 then 0) into an empty store end with one
row for the pair whose value is 0. -/
theorem c1_sequential_upsert_last_write_wins_witness :
    (([1, 0] : List Int) ≠ []) ∧
    (pairFilter (submitSeq [] "u" "c" [1, 0]) "c" "u").map (fun r => r.vote_value)
        = [([1, 0] : List Int).getLast (by simp)] := by
  refine ⟨by simp, ?_⟩
  exact (c1_sequential_upsert_last_write_wins [] "u" "c" [1, 0] (by simp)
    (by decide) (by decide) (by decide)).1

/-- C3: a validated, authenticated submission creates a row and reports
action "created" when no row exists for the pair, and otherwise overwrites
the single existing row, reporting action "updated" and the previously
stored value; in particular, submitting +1 then -1 into an empty store
yields action "updated", previous_vote = 1, and final stored value -1. -/
theorem c3_create_then_update_semantics (store : List VoteRecord)
    (uid cid : String) (v : Int) (hcid : cid ≠ "") (hv : v = 1 ∨ v = -1 ∨ v = 0) :
    (pairFilter store cid uid = [] →
      (votePost store (some uid) (some cid) (some v)).1.action = some "created" ∧
      (votePost store (some uid) (some cid) (some v)).1.previous_vote = none ∧
      (votePost store (some uid) (some cid) (some v)).1.status = 200 ∧
      (pairFilter (votePost store (some uid) (some cid) (some v)).2 cid uid).map
        (fun r => r.vote_value) = [v]) ∧
    (∀ r, pairFilter store cid uid = [r] →
      (votePost store (some uid) (some cid) (some v)).1.action = some "updated" ∧
      (votePost store (some uid) (some cid) (some v)).1.previous_vote = some r.vote_value ∧
      (votePost store (some uid) (some cid) (some v)).1.vote
        = some { r with vote_value := v } ∧
      (votePost store (some uid) (some cid) (some v)).1.status = 200 ∧
      (pairFilter (votePost store (some uid) (some cid) (some v)).2 cid uid).map
        (fun r => r.vote_value) = [v]) ∧
    ((votePost (votePost [] (some "u") (some "c") (some 1)).2
        (some "u") (some "c") (some (-1))).1.action = some "updated" ∧
     (votePost (votePost [] (some "u") (some "c") (some 1)).2
        (some "u") (some "c") (some (-1))).1.previous_vote = some 1 ∧
     (pairFilter (votePost (votePost [] (some "u") (some "c") (some 1)).2
        (some "u") (some "c") (some (-1))).2 "c" "u").map (fun r => r.vote_value)
       = [-1]) := by
  refine ⟨?_, ?_, by decide⟩
  · intro hempty
    have hsingle : singleVote store cid uid = none := by
      unfold singleVote
      rw [hempty]
    have hresp := votePost_response_eq store uid cid v hcid hv
    have hmap := pairFilter_after_votePost store uid cid v hcid hv (by rw [hempty]; simp)
    rw [hsingle] at hresp
    rw [hresp]
    exact ⟨rfl, rfl, rfl, hmap⟩
  · intro r hone
    have hsingle : singleVote store cid uid = some r := by
      unfold singleVote
      rw [hone]
    have hresp := votePost_response_eq store uid cid v hcid hv
    have hmap := pairFilter_after_votePost store uid cid v hcid hv (by rw [hone]; simp)
    rw [hsingle] at hresp
    rw [hresp]
    exact ⟨rfl, rfl, rfl, rfl, hmap⟩

/-- The single-vote contribution to the three buckets, by sign. -/
def bucket (v : Int) : WCounts :=
  if 0 < v then { upvotes := 1, downvotes := 0, neutrals := 0 }
  else if v < 0 then { upvotes := 0, downvotes := 1, neutrals := 0 }
  else { upvotes := 0, downvotes := 0, neutrals := 1 }

/-- Componentwise sum of counts. -/
def addC (a b : WCounts) : WCounts :=
  { upvotes := a.upvotes + b.upvotes, downvotes := a.downvotes + b.downvotes
    neutrals := a.neutrals + b.neutrals }

/-- Componentwise difference of counts. -/
def subC (a b : WCounts) : WCounts :=
  { upvotes := a.upvotes - b.upvotes, downvotes := a.downvotes - b.downvotes
    neutrals := a.neutrals - b.neutrals }

/-- Aggregating one more value adds its sign bucket. -/
theorem aggregate_cons (x : Int) (xs : List Int) :
    aggregate (x :: xs) = addC (bucket x) (aggregate xs) := by
  simp only [aggregate, bucket, addC, List.filter_cons, decide_eq_true_eq]
  rcases lt_trichotomy 0 x with h | h | h
  · rw [if_pos h, if_neg (by omega : ¬ x < 0), if_neg (by omega : ¬ x = 0), if_pos h]
    simp only [List.length_cons, WCounts.mk.injEq]
    refine ⟨?_, ?_, ?_⟩ <;> push_cast <;> omega
  · rw [if_neg (by omega : ¬ 0 < x), if_neg (by omega : ¬ x < 0), if_pos h.symm,
      if_neg (by omega : ¬ 0 < x), if_neg (by omega : ¬ x < 0)]
    simp only [List.length_cons, WCounts.mk.injEq]
    refine ⟨?_, ?_, ?_⟩ <;> push_cast <;> omega
  · rw [if_neg (by omega : ¬ 0 < x), if_pos h, if_neg (by omega : ¬ x = 0),
      if_neg (by omega : ¬ 0 < x), if_pos h]
    simp only [List.length_cons, WCounts.mk.injEq]
    refine ⟨?_, ?_, ?_⟩ <;> push_cast <;> omega

/-- Aggregation only depends on the multiset of values. -/
theorem aggregate_perm {xs ys : List Int} (h : xs.Perm ys) :
    aggregate xs = aggregate ys := by
  have h1 := (h.filter (fun v => decide (0 < v))).length_eq
  have h2 := (h.filter (fun v => decide (v < 0))).length_eq
  have h3 := (h.filter (fun v => decide (v = 0))).length_eq
  simp [aggregate, h1, h2, h3]

/-- The widget's two if-chains, re-expressed with the bucket algebra:
subtract the previous vote's bucket (when any), add the new vote's bucket. -/
theorem applyOptimistic_eq (c : WCounts) (prev : Option Int) (v : Int) :
    applyOptimistic c prev v
      = addC (match prev with
              | none => c
              | some p => subC c (bucket p)) (bucket v) := by
  cases prev with
  | none =>
    simp only [applyOptimistic, bucket, addC]
    split_ifs <;> simp_all [WCounts.mk.injEq]
  | some p =>
    simp only [applyOptimistic, bucket, addC, subC]
    split_ifs <;> simp_all [WCounts.mk.injEq]

/-- Recomputing the aggregate after overwriting the single entry of voter `w`
equals subtracting the old bucket and adding the new one. -/
theorem aggregate_map_replace (V : List (String × Int)) (w : String) (p v : Int)
    (hfil : V.filter (fun e => decide (e.1 = w)) = [(w, p)]) :
    aggregate ((V.map (fun e => if e.1 = w then (w, v) else e)).map Prod.snd)
      = addC (subC (aggregate (V.map Prod.snd)) (bucket p)) (bucket v) := by
  induction V with
  | nil => simp at hfil
  | cons e V ih =>
    by_cases he : e.1 = w
    · rw [List.filter_cons_of_pos (by simp [he])] at hfil
      have hcons := List.cons_eq_cons.mp hfil
      obtain ⟨he2, hnil⟩ := hcons
      have hgV : V.map (fun e => if e.1 = w then (w, v) else e) = V := by
        conv_rhs => rw [← List.map_id V]
        apply List.map_congr_left
        intro a ha
        have haw : ¬ a.1 = w := by
          intro haw
          have := List.filter_eq_nil_iff.mp hnil a ha
          simp [haw] at this
        simp [haw]
      have he2v : e.2 = p := by rw [he2]
      rw [List.map_cons, List.map_cons, if_pos he, hgV, List.map_cons]
      rw [show ((w, v) : String × Int).2 = v from rfl]
      rw [aggregate_cons, aggregate_cons, he2v]
      simp only [addC, subC, WCounts.mk.injEq]
      refine ⟨?_, ?_, ?_⟩ <;> omega
    · rw [List.filter_cons_of_neg (by simp [he])] at hfil
      have hih := ih hfil
      rw [List.map_cons, List.map_cons, if_neg he, List.map_cons]
      rw [aggregate_cons, hih, aggregate_cons]
      simp only [addC, subC, WCounts.mk.injEq]
      refine ⟨?_, ?_, ?_⟩ <;> omega

/-- C5: for every vote multiset of a caption, if the widget's notion of the
acting voter's previous vote matches the store (absent, or the voter's single
entry), then the widget's optimistic decrement/increment of the displayed
counts equals a server-side re-aggregation of the store with the voter's vote
replaced (or, if absent, extended). -/
theorem c5_optimistic_update_matches_server (V : List (String × Int)) (w : String)
    (prev : Option Int) (v : Int)
    (hv : v = 1 ∨ v = -1 ∨ v = 0)
    (hprev : match prev with
             | none => V.filter (fun e => decide (e.1 = w)) = []
             | some p => V.filter (fun e => decide (e.1 = w)) = [(w, p)]) :
    applyOptimistic (aggregate (V.map Prod.snd)) prev v
      = aggregate ((replaceVote V w v).map Prod.snd) := by
  cases prev with
  | none =>
    have hnil : V.filter (fun e => decide (e.1 = w)) = [] := hprev
    have hany : V.any (fun e => decide (e.1 = w)) = false := by
      rw [List.any_eq_false]
      intro a ha
      have := List.filter_eq_nil_iff.mp hnil a ha
      simpa using this
    unfold replaceVote
    rw [if_neg (by simp [hany])]
    rw [applyOptimistic_eq]
    dsimp only
    rw [List.map_append]
    dsimp only [List.map_cons, List.map_nil]
    have hperm : ((V.map Prod.snd) ++ [v]).Perm (v :: V.map Prod.snd) :=
      List.perm_append_singleton v (V.map Prod.snd)
    rw [aggregate_perm hperm, aggregate_cons]
    simp only [addC, WCounts.mk.injEq]
    refine ⟨?_, ?_, ?_⟩ <;> omega
  | some p =>
    have hfil : V.filter (fun e => decide (e.1 = w)) = [(w, p)] := hprev
    have hmem : (w, p) ∈ V := by
      have hm : (w, p) ∈ V.filter (fun e => decide (e.1 = w)) := by
        rw [hfil]
        exact List.mem_singleton.mpr rfl
      exact (List.mem_filter.mp hm).1
    have hany : V.any (fun e => decide (e.1 = w)) = true := by
      rw [List.any_eq_true]
      exact ⟨(w, p), hmem, by simp⟩
    unfold replaceVote
    rw [if_pos hany]
    rw [applyOptimistic_eq]
    exact (aggregate_map_replace V w p v hfil).symm

/-- C5 witness: votes {a ↦ +1, b ↦ -1}, voter a revotes 0. -/
theorem c5_optimistic_update_matches_server_witness :
    (((0 : Int) = 1 ∨ (0 : Int) = -1 ∨ (0 : Int) = 0) ∧
      ([(("a" : String), (1 : Int)), ("b", -1)].filter (fun e => decide (e.1 = "a"))
        = [("a", 1)])) ∧
    applyOptimistic (aggregate ([(("a" : String), (1 : Int)), ("b", -1)].map Prod.snd))
        (some 1) 0
      = aggregate ((replaceVote [(("a" : String), (1 : Int)), ("b", -1)] "a" 0).map
          Prod.snd) :=
  ⟨⟨by decide, by decide⟩,
   c5_optimistic_update_matches_server [(("a" : String), (1 : Int)), ("b", -1)] "a"
     (some 1) 0 (by decide) (by decide)⟩

/-- One swap preserves the multiset of list elements. -/
theorem listSwap_perm {α : Type} (l : List α) (i j : Nat) :
    (listSwap l i j).Perm l := by
  classical
  unfold listSwap
  split
  · next h =>
    obtain ⟨hi, hj⟩ := h
    simp only [List.get_eq_getElem]
    rw [List.perm_iff_count]
    intro x
    have hj2 : j < (l.set i l[j]).length := by simpa using hj
    rw [List.count_set _ _ _ _ hj2, List.count_set _ _ _ _ hi]
    simp only [List.getElem_set, ite_self]
    by_cases hix : l[i] = x
    · have hcx : 0 < l.count x := List.count_pos_iff.mpr (hix ▸ List.getElem_mem hi)
      by_cases hjx : l[j] = x <;> simp [hix, hjx] <;> omega
    · by_cases hjx : l[j] = x <;> simp [hix, hjx]
  · exact List.Perm.refl _

/-- The whole Fisher–Yates loop preserves the multiset of list elements. -/
theorem fyAux_perm {α : Type} (js : List Nat) (l : List α) (i : Nat) :
    (fyAux l i js).Perm l := by
  induction js generalizing l i with
  | nil => cases i <;> exact List.Perm.refl _
  | cons j js ih =>
    cases i with
    | zero => exact List.Perm.refl _
    | succ n => exact (ih (listSwap l (n + 1) j) n).trans (listSwap_perm l (n + 1) j)

/-- The shuffled superset is a permutation of the fetched superset. -/
theorem fisherYates_perm {α : Type} (l : List α) (js : List Nat) :
    (fisherYates l js).Perm l :=
  fyAux_perm js l (l.length - 1)

/-- Element-level description of the JS slice window. -/
theorem jsSlice_getElem {α : Type} (l : List α) (s e k : Nat) :
    (jsSlice l s e)[k]? = if s + k < e then l[s + k]? else none := by
  unfold jsSlice
  rw [List.getElem?_drop, List.getElem?_take]

/-- C8: for every fetched superset (at most 1000 rows) and every admissible
sequence of random indices (one index j ≤ i for each i from the last
position down to 1), the Fisher–Yates loop produces a permutation of the
superset, and the random-mode response page is exactly the window
[offset, offset + limit) of the shuffled sequence. -/
theorem c8_fisher_yates_permutation_window (superset : List Caption)
    (js : List Nat) (offset limit k : Nat)
    (hcap : superset.length ≤ 1000)
    (hlen : js.length = superset.length - 1)
    (hvalid : ∀ m (hm : m < js.length), js.get ⟨m, hm⟩ ≤ superset.length - 1 - m) :
    (fisherYates superset js).Perm superset ∧
    (k < limit →
      (randomResponse superset js limit offset).captions[k]?
        = (fisherYates superset js)[offset + k]?) ∧
    (limit ≤ k →
      (randomResponse superset js limit offset).captions[k]? = none) := by
  refine ⟨fisherYates_perm superset js, ?_, ?_⟩
  · intro hk
    show (jsSlice (fisherYates superset js) offset (offset + limit))[k]? = _
    rw [jsSlice_getElem]
    rw [if_pos (by omega)]
  · intro hk
    show (jsSlice (fisherYates superset js) offset (offset + limit))[k]? = none
    rw [jsSlice_getElem]
    rw [if_neg (by omega)]

/-- C8 witness: a three-row superset with random indices [1, 0]. -/
theorem c8_fisher_yates_permutation_window_witness :
    ((0 : Nat) < 1) ∧
    (randomResponse
        ([{ id := "a", content := some "x", like_count := 0, created := 0 },
          { id := "b", content := some "y", like_count := 0, created := 1 },
          { id := "c", content := some "z", like_count := 0, created := 2 }] : List Caption)
        [1, 0] 1 1).captions[0]?
      = (fisherYates
          ([{ id := "a", content := some "x", like_count := 0, created := 0 },
            { id := "b", content := some "y", like_count := 0, created := 1 },
            { id := "c", content := some "z", like_count := 0, created := 2 }] : List Caption)
          [1, 0])[1 + 0]? :=
  ⟨by decide,
   (c8_fisher_yates_permutation_window
      [{ id := "a", content := some "x", like_count := 0, created := 0 },
       { id := "b", content := some "y", like_count := 0, created := 1 },
       { id := "c", content := some "z", like_count := 0, created := 2 }]
      [1, 0] 1 1 0 (by decide) (by decide) (by decide)).2.1 (by decide)⟩

/-- C9: the pagination metadata satisfies hasMore = (offset + limit) < total,
where total is the shuffled superset size in random mode and the count of
non-empty-content captions in deterministic modes; whenever offset ≥ total
the returned page is empty and hasMore is false. -/
theorem c9_pagination_has_more (db sorted superset : List Caption)
    (js : List Nat) (limit offset : Nat)
    (hs : sorted.Perm (candidates db)) :
    (randomResponse superset js limit offset).total = superset.length ∧
    (randomResponse superset js limit offset).hasMore
        = decide (offset + limit < superset.length) ∧
    (superset.length ≤ offset →
      (randomResponse superset js limit offset).captions = [] ∧
      (randomResponse superset js limit offset).hasMore = false) ∧
    (detResponse db sorted limit offset).hasMore
        = decide (offset + limit < (candidates db).length) ∧
    ((candidates db).length ≤ offset →
      (detResponse db sorted limit offset).captions = [] ∧
      (detResponse db sorted limit offset).hasMore = false) := by
  refine ⟨?_, ?_, ?_, rfl, ?_⟩
  · show (fisherYates superset js).length = superset.length
    exact (fisherYates_perm superset js).length_eq
  · show decide (offset + limit < (fisherYates superset js).length) = _
    rw [(fisherYates_perm superset js).length_eq]
  · intro hoff
    constructor
    · show jsSlice (fisherYates superset js) offset (offset + limit) = []
      unfold jsSlice
      apply List.drop_eq_nil_of_le
      have h1 : ((fisherYates superset js).take (offset + limit)).length
          ≤ (fisherYates superset js).length := by
        rw [List.length_take]
        omega
      rw [(fisherYates_perm superset js).length_eq] at h1
      omega
    · show decide (offset + limit < (fisherYates superset js).length) = false
      rw [(fisherYates_perm superset js).length_eq]
      simp only [decide_eq_false_iff_not]
      omega
  · intro hoff
    constructor
    · show dbRange sorted offset limit = []
      unfold dbRange
      rw [List.drop_eq_nil_of_le]
      · exact List.take_nil
      · rw [hs.length_eq]
        exact hoff
    · show decide (offset + limit < (candidates db).length) = false
      simp only [decide_eq_false_iff_not]
      omega

/-- C9 witness: a one-row database with the window placed past the end. -/
theorem c9_pagination_has_more_witness :
    (randomResponse ([{ id := "a", content := some "x", like_count := 0, created := 0 }]
          : List Caption)
        [] 20 1).captions = [] ∧
    (randomResponse ([{ id := "a", content := some "x", like_count := 0, created := 0 }]
          : List Caption)
        [] 20 1).hasMore = false ∧
    (detResponse [{ id := "a", content := some "x", like_count := 0, created := 0 }]
        [{ id := "a", content := some "x", like_count := 0, created := 0 }] 20 1).captions
      = [] ∧
    (detResponse [{ id := "a", content := some "x", like_count := 0, created := 0 }]
        [{ id := "a", content := some "x", like_count := 0, created := 0 }] 20 1).hasMore
      = false := by
  have h := c9_pagination_has_more
    [{ id := "a", content := some "x", like_count := 0, created := 0 }]
    [{ id := "a", content := some "x", like_count := 0, created := 0 }]
    [{ id := "a", content := some "x", like_count := 0, created := 0 }]
    [] 20 1 (by decide)
  obtain ⟨-, -, hrand, -, hdet⟩ := h
  have hr := hrand (by decide)
  have hd := hdet (by decide)
  exact ⟨hr.1, hr.2, hd.1, hd.2⟩

/-- C3 witness: a fresh submission of +1 into an empty store reports
"created". -/
theorem c3_create_then_update_semantics_witness :
    ("c" ≠ "") ∧ ((1 : Int) = 1 ∨ (1 : Int) = -1 ∨ (1 : Int) = 0) ∧
    pairFilter [] "c" "u" = [] ∧
    (votePost [] (some "u") (some "c") (some 1)).1.action = some "created" :=
  ⟨by decide, Or.inl rfl, rfl,
   ((c3_create_then_update_semantics [] "u" "c" 1 (by decide) (Or.inl rfl)).1 rfl).1⟩

/-- C2: for every set of vote records of a caption whose values lie in
{-1, 0, 1}, the aggregation buckets by sign, the reported total equals
upvotes + downvotes + neutrals, this total equals the number of records, and
every bucket is non-negative. -/
theorem c2_aggregation_partitions (vals : List Int)
    (hv : ∀ v ∈ vals, v = -1 ∨ v = 0 ∨ v = 1) :
    (aggregate vals).upvotes + (aggregate vals).downvotes + (aggregate vals).neutrals
        = totalVotes (aggregate vals) ∧
    totalVotes (aggregate vals) = (vals.length : Int) ∧
    0 ≤ (aggregate vals).upvotes ∧ 0 ≤ (aggregate vals).downvotes ∧
    0 ≤ (aggregate vals).neutrals := by
  refine ⟨rfl, aggregate_total_eq_length vals, ?_, ?_, ?_⟩ <;>
    simp [aggregate]

/-- C2 witness: the spec's example vote set [+1, +1, -1, 0]. -/
theorem c2_aggregation_partitions_witness :
    (∀ v ∈ ([1, 1, -1, 0] : List Int), v = -1 ∨ v = 0 ∨ v = 1) ∧
    totalVotes (aggregate [1, 1, -1, 0]) = 4 ∧
    aggregate [1, 1, -1, 0] = { upvotes := 2, downvotes := 1, neutrals := 1 } := by
  refine ⟨by decide, ?_, by decide⟩
  have h := (c2_aggregation_partitions [1, 1, -1, 0] (by decide)).2.1
  simpa using h

/-- C10: an unauthenticated vote POST yields 401 "Authentication required"
whatever the body holds, because the authentication check precedes body
validation; hence a 400 response implies an authenticated caller. -/
theorem c10_auth_checked_before_validation (store : List VoteRecord)
    (caption_id : Option String) (vote_value : Option Int) (user : Option String) :
    (user = none → votePost store user caption_id vote_value = (authRequired401, store)) ∧
    ((votePost store user caption_id vote_value).1.status = 400 → user ≠ none) := by
  constructor
  · rintro rfl
    rfl
  · intro h400 huser
    subst huser
    simp [votePost, authRequired401] at h400

/-- C10 witness: an unauthenticated request with an arbitrary body gets the
401 response, and an authenticated request with a missing caption id is a
caller that is not `none`. -/
theorem c10_auth_checked_before_validation_witness :
    votePost [] none (some "") (some 5) = (authRequired401, []) ∧
    (some "u" : Option String) ≠ none :=
  ⟨(c10_auth_checked_before_validation [] (some "") (some 5) none).1 rfl,
   (c10_auth_checked_before_validation [] none (some 5) (some "u")).2 (by decide)⟩

/-- C4 (evaluation at the failing input): with a single stored vote of value
0 for (caption "c1", voter "u1"), the authenticated vote GET reports
`user_vote = null` — the `|| null` coalescing swallows the neutral vote —
while the captions listing reports `user_vote = 0` for the same state. -/
theorem c4_neutral_vote_get_eval :
    (voteGet [{ id := 1, caption_id := "c1", profile_id := "u1", vote_value := 0 }]
        (some "u1") (some "c1")).user_vote = none ∧
    listingUserVote [{ id := 1, caption_id := "c1", profile_id := "u1", vote_value := 0 }]
        "u1" "c1" = some 0 ∧
    (voteGet [{ id := 1, caption_id := "c1", profile_id := "u1", vote_value := 0 }]
        (some "u1") (some "c1")).vote_counts.neutrals = 1 := by
  refine ⟨?_, ?_, ?_⟩ <;> rfl

/-- C6 (evaluation at the failing input): over captions with like counts
[0, 0, 5, 10] and the 15 matching `caption_likes` rows, the handler reports
captionsWithLikes = 2, avgLikesPerCaption = 7.5 and maxLikes = 10 as the
claim states, but likeRate = 15 / 4 * 100 = 375, not
captionsWithLikes / totalCaptions * 100 = 50: the numerator is the
`caption_likes` row count, not the number of liked captions. -/
theorem c6_like_rate_eval :
    (engagementMetrics [0, 0, 5, 10] 15).captionsWithLikes = 2 ∧
    (engagementMetrics [0, 0, 5, 10] 15).avgLikesPerCaption = 15 / 2 ∧
    (engagementMetrics [0, 0, 5, 10] 15).maxLikes = 10 ∧
    (engagementMetrics [0, 0, 5, 10] 15).likeRate = 375 ∧
    (engagementMetrics [0, 0, 5, 10] 15).likeRate ≠ (2 : ℚ) / 4 * 100 := by
  refine ⟨rfl, ?_, rfl, ?_, ?_⟩ <;> norm_num [engagementMetrics]

/-- C7 counterexample: with zero votes the analytics insight string still
performs the upvote-ratio division; `0 / 0` is the JS value NaN, which is
rendered rather than omitted. -/
theorem c7_analytics_nan_counterexample :
    analyticsUpvoteRatio 0 0 = RatioDisplay.nanPercent ∧
    analyticsUpvoteRatio 0 0 ≠ RatioDisplay.omitted := by
  exact ⟨rfl, by simp [analyticsUpvoteRatio]⟩

/-- C7 as amended: the voting widget's displayed percentage is guarded —
it is omitted whenever upvotes + downvotes is not positive and is never NaN,
so the widget never divides by a zero denominator — but the analytics
insight string performs the division unguarded and yields NaN exactly when
upvotes + downvotes = 0. -/
theorem c7_divide_by_zero_guards (c : WCounts) (up down : Nat) :
    widgetUpvoteRatio c ≠ RatioDisplay.nanPercent ∧
    (c.upvotes + c.downvotes ≤ 0 → widgetUpvoteRatio c = RatioDisplay.omitted) ∧
    (analyticsUpvoteRatio up down = RatioDisplay.nanPercent ↔ up + down = 0) := by
  refine ⟨?_, ?_, ?_⟩
  · unfold widgetUpvoteRatio
    split <;> simp
  · intro h
    unfold widgetUpvoteRatio
    rw [if_neg (not_lt.mpr h)]
  · unfold analyticsUpvoteRatio
    split <;> simp_all

/-- C7 witness: the all-zero counts instantiate the guard hypothesis. -/
theorem c7_divide_by_zero_guards_witness :
    ((0 : Int) + 0 ≤ 0) ∧
    widgetUpvoteRatio { upvotes := 0, downvotes := 0, neutrals := 0 } = RatioDisplay.omitted :=
  ⟨by decide,
   (c7_divide_by_zero_guards { upvotes := 0, downvotes := 0, neutrals := 0 } 0 0).2.1
     (by decide)⟩
